import Mathlib

/-!
Verification development for the groto proto3 front end.

The program embedded here is the coherent current version of the
repository: the token classification of token/token.go, the scanner of
the scanner package (the file read as part_006), and the
recursive-descent parser of the parser package (the file read as
part_008).  These three compile together (the older snapshots kept in
the tree refer to token kinds such as OpenParens that the token package
does not define).

Conventions of the embedding:
  * Go runes are Lean Char; the input stream is the remaining List Char.
  * The bufio reader with one-rune pushback is modelled by functions
    returning the value read together with the remaining stream.
  * Go panics in the parser are modelled by an error result; the
    recover in parseProto corresponds to returning that error.
  * The parser's loops and recursion are instrumented with an explicit
    fuel parameter (structural recursion on Nat); exhausting the fuel
    yields the distinguished result PR.out.  A run of the Go program
    corresponds to a run with enough fuel; a run that returns PR.out at
    every fuel diverges.
  * Identifiers ending in reserved words of the verification toolchain
    are renamed (Kind.SyntaxKw for the kind called Syntax in the source,
    SyntaxStmt / parseSyntaxStmt for the AST node Syntax and parseSyntax,
    TypeKind for token.Type, ProtoOption for parser.Option, pfx for the
    field Prefix); everything else keeps its source name.
-/

namespace token

/-- token.Kind: the enumeration of token kinds, including the unexported
range markers (first_constant, ..., last_kind) that the Go iota block
declares between the real kinds. -/
inductive Kind : Type where
  | Illegal
  | EOF
  | Comment
  | Identifier
  | first_constant
  | first_number
  | DecimalLiteral
  | FloatLiteral
  | HexLiteral
  | OctalLiteral
  | last_number
  | StringLiteral
  | first_keyword
  | False
  | True
  | last_constant
  | Enum
  | Import
  | Map
  | Message
  | Oneof
  | Option
  | Package
  | Public
  | Repeated
  | Reserved
  | Returns
  | RPC
  | Service
  | Stream
  | SyntaxKw
  | To
  | Weak
  | last_keyword
  | first_type
  | Bytes
  | Double
  | Float
  | first_key_type
  | Bool
  | Fixed32
  | Fixed64
  | Int32
  | Int64
  | Sfixed32
  | Sfixed64
  | Sint32
  | Sint64
  | String
  | Uint32
  | Uint64
  | last_type
  | Dot
  | Equals
  | Minus
  | Plus
  | Comma
  | Semicolon
  | OpenParen
  | CloseParen
  | OpenBrace
  | CloseBrace
  | OpenBracket
  | CloseBracket
  | OpenAngled
  | CloseAngled
  | last_kind
deriving DecidableEq, Repr

/-- The integer value of each kind as assigned by the Go iota block. -/
def Kind.toNat : Kind → Nat
  | .Illegal => 0
  | .EOF => 1
  | .Comment => 2
  | .Identifier => 3
  | .first_constant => 4
  | .first_number => 5
  | .DecimalLiteral => 6
  | .FloatLiteral => 7
  | .HexLiteral => 8
  | .OctalLiteral => 9
  | .last_number => 10
  | .StringLiteral => 11
  | .first_keyword => 12
  | .False => 13
  | .True => 14
  | .last_constant => 15
  | .Enum => 16
  | .Import => 17
  | .Map => 18
  | .Message => 19
  | .Oneof => 20
  | .Option => 21
  | .Package => 22
  | .Public => 23
  | .Repeated => 24
  | .Reserved => 25
  | .Returns => 26
  | .RPC => 27
  | .Service => 28
  | .Stream => 29
  | .SyntaxKw => 30
  | .To => 31
  | .Weak => 32
  | .last_keyword => 33
  | .first_type => 34
  | .Bytes => 35
  | .Double => 36
  | .Float => 37
  | .first_key_type => 38
  | .Bool => 39
  | .Fixed32 => 40
  | .Fixed64 => 41
  | .Int32 => 42
  | .Int64 => 43
  | .Sfixed32 => 44
  | .Sfixed64 => 45
  | .Sint32 => 46
  | .Sint64 => 47
  | .String => 48
  | .Uint32 => 49
  | .Uint64 => 50
  | .last_type => 51
  | .Dot => 52
  | .Equals => 53
  | .Minus => 54
  | .Plus => 55
  | .Comma => 56
  | .Semicolon => 57
  | .OpenParen => 58
  | .CloseParen => 59
  | .OpenBrace => 60
  | .CloseBrace => 61
  | .OpenBracket => 62
  | .CloseBracket => 63
  | .OpenAngled => 64
  | .CloseAngled => 65
  | .last_kind => 66

/-- The Lean name for the root String type, usable inside declarations
whose name lives under Kind (where the bare name String would denote
the constructor Kind.String). -/
abbrev Str := String

/-- Inverse of Kind.toNat on the declared kinds (any other integer is
mapped to Illegal; the program only applies it to declared values).
Named fromNat because an automatically generated Kind.ofNat exists. -/
def Kind.fromNat (n : Nat) : Kind :=
  match n with
  | 0 => .Illegal
  | 1 => .EOF
  | 2 => .Comment
  | 3 => .Identifier
  | 4 => .first_constant
  | 5 => .first_number
  | 6 => .DecimalLiteral
  | 7 => .FloatLiteral
  | 8 => .HexLiteral
  | 9 => .OctalLiteral
  | 10 => .last_number
  | 11 => .StringLiteral
  | 12 => .first_keyword
  | 13 => .False
  | 14 => .True
  | 15 => .last_constant
  | 16 => .Enum
  | 17 => .Import
  | 18 => .Map
  | 19 => .Message
  | 20 => .Oneof
  | 21 => .Option
  | 22 => .Package
  | 23 => .Public
  | 24 => .Repeated
  | 25 => .Reserved
  | 26 => .Returns
  | 27 => .RPC
  | 28 => .Service
  | 29 => .Stream
  | 30 => .SyntaxKw
  | 31 => .To
  | 32 => .Weak
  | 33 => .last_keyword
  | 34 => .first_type
  | 35 => .Bytes
  | 36 => .Double
  | 37 => .Float
  | 38 => .first_key_type
  | 39 => .Bool
  | 40 => .Fixed32
  | 41 => .Fixed64
  | 42 => .Int32
  | 43 => .Int64
  | 44 => .Sfixed32
  | 45 => .Sfixed64
  | 46 => .Sint32
  | 47 => .Sint64
  | 48 => .String
  | 49 => .Uint32
  | 50 => .Uint64
  | 51 => .last_type
  | 52 => .Dot
  | 53 => .Equals
  | 54 => .Minus
  | 55 => .Plus
  | 56 => .Comma
  | 57 => .Semicolon
  | 58 => .OpenParen
  | 59 => .CloseParen
  | 60 => .OpenBrace
  | 61 => .CloseBrace
  | 62 => .OpenBracket
  | 63 => .CloseBracket
  | 64 => .OpenAngled
  | 65 => .CloseAngled
  | 66 => .last_kind
  | _ => .Illegal

/-- Kind.String() of token/token.go.  Kinds without an explicit case
(the range markers and last_kind) fall into the default case, whose
text keeps the source's spelling, typo included. -/
def Kind.toString : Kind → Str
  | .Illegal => "illegal"
  | .EOF => "end of file"
  | .Comment => "comment"
  | .DecimalLiteral => "decimal literal"
  | .FloatLiteral => "float literal"
  | .HexLiteral => "hex literal"
  | .OctalLiteral => "octal literal"
  | .StringLiteral => "string literal"
  | .Identifier => "identifier"
  | .False => "false"
  | .True => "true"
  | .Enum => "enum"
  | .Import => "import"
  | .Map => "map"
  | .Message => "message"
  | .Oneof => "oneof"
  | .Option => "option"
  | .Package => "package"
  | .Public => "public"
  | .Repeated => "repeated"
  | .Reserved => "reserved"
  | .Returns => "returns"
  | .RPC => "rpc"
  | .Service => "service"
  | .Stream => "stream"
  | .SyntaxKw => "syntax"
  | .To => "to"
  | .Weak => "weak"
  | .Bytes => "bytes"
  | .Double => "double"
  | .Float => "float"
  | .Bool => "bool"
  | .Fixed32 => "fixed32"
  | .Fixed64 => "fixed64"
  | .Int32 => "int32"
  | .Int64 => "int64"
  | .Sfixed32 => "sfixed32"
  | .Sfixed64 => "sfixed64"
  | .Sint32 => "sint32"
  | .Sint64 => "sint64"
  | .String => "string"
  | .Uint32 => "uint32"
  | .Uint64 => "uint64"
  | .Dot => "'.'"
  | .Equals => "'='"
  | .Minus => "'-'"
  | .Plus => "'+'"
  | .Comma => "','"
  | .Semicolon => "';'"
  | .OpenParen => "'('"
  | .CloseParen => "')'"
  | .OpenBrace => "'\x7b'"
  | .CloseBrace => "'\x7d'"
  | .OpenBracket => "'['"
  | .CloseBracket => "']'"
  | .OpenAngled => "'<'"
  | .CloseAngled => "'>'"
  | k => "unkown token kind " ++ Nat.repr (Kind.toNat k)

/-- strings.ToLower restricted to ASCII (every string the token package
lowercases is an ASCII kind name). -/
def asciiToLower (s : String) : String :=
  String.mk (s.data.map fun c =>
    if 'A' ≤ c && c ≤ 'Z' then Char.ofNat (c.toNat + 32) else c)

/-- The function from(a, b) of token/token.go: the lookup table holding
strings.ToLower(t.String()) → t for every t strictly between a and b.
The Go map is modelled by a search over the same index range; the keys
are pairwise distinct, so the order of the search is irrelevant. -/
def fromKinds (a b : Kind) (s : String) : Kind :=
  match (List.range' (a.toNat + 1) (b.toNat - a.toNat - 1)).find?
      (fun t => asciiToLower (Kind.toString (Kind.fromNat t)) == s) with
  | some t => Kind.fromNat t
  | none => .Illegal

/-- token.Keyword: reverse lookup built from the keyword range. -/
def Keyword (s : String) : Kind := fromKinds .first_keyword .last_keyword s

/-- token.Type: reverse lookup built from the type range (renamed, as
Type is reserved in Lean). -/
def TypeKind (s : String) : Kind := fromKinds .first_type .last_type s

/-- token.Punctuation: the literal punctuation table. -/
def Punctuation (s : String) : Kind :=
  if s = "." then .Dot
  else if s = "=" then .Equals
  else if s = "-" then .Minus
  else if s = "+" then .Plus
  else if s = "," then .Comma
  else if s = ";" then .Semicolon
  else if s = "(" then .OpenParen
  else if s = ")" then .CloseParen
  else if s = "\x7b" then .OpenBrace
  else if s = "\x7d" then .CloseBrace
  else if s = "[" then .OpenBracket
  else if s = "]" then .CloseBracket
  else if s = "<" then .OpenAngled
  else if s = ">" then .CloseAngled
  else .Illegal

/-- token.IsKeyword: first_keyword < k < last_keyword. -/
def IsKeyword (k : Kind) : Bool :=
  Kind.first_keyword.toNat < k.toNat && k.toNat < Kind.last_keyword.toNat

/-- token.IsConstant: first_constant < k < last_constant. -/
def IsConstant (k : Kind) : Bool :=
  Kind.first_constant.toNat < k.toNat && k.toNat < Kind.last_constant.toNat

/-- token.IsNumber: first_number < k < last_number. -/
def IsNumber (k : Kind) : Bool :=
  Kind.first_number.toNat < k.toNat && k.toNat < Kind.last_number.toNat

/-- token.IsType: first_type < k < last_type. -/
def IsType (k : Kind) : Bool :=
  Kind.first_type.toNat < k.toNat && k.toNat < Kind.last_type.toNat

/-- token.IsKeyType: first_key_type < k < last_type. -/
def IsKeyType (k : Kind) : Bool :=
  Kind.first_key_type.toNat < k.toNat && k.toNat < Kind.last_type.toNat

end token

namespace scanner

/-- The rune constants of the scanner. -/
def lineBreak : Char := '\n'

def underscore : Char := '_'

/-- The scanner's eof sentinel: read returns the rune 0 at end of input. -/
def eofRune : Char := Char.ofNat 0

def dot : Char := '.'

def backslash : Char := '\\'

def quote : Char := '\''

def doubleQuote : Char := '"'

/-- unicode.IsLetter, restricted to the ASCII range (every letter in the
inputs considered here is ASCII). -/
def isLetter (c : Char) : Bool :=
  ('a' ≤ c && c ≤ 'z') || ('A' ≤ c && c ≤ 'Z')

/-- unicode.IsSpace: the Unicode White_Space property (complete). -/
def isSpace (c : Char) : Bool :=
  c = ' ' || c = '\t' || c = '\n' || c = Char.ofNat 11 || c = Char.ofNat 12 ||
  c = '\r' || c = Char.ofNat 0x85 || c = Char.ofNat 0xA0 ||
  c = Char.ofNat 0x1680 ||
  (Char.ofNat 0x2000 ≤ c && c ≤ Char.ofNat 0x200A) ||
  c = Char.ofNat 0x2028 || c = Char.ofNat 0x2029 || c = Char.ofNat 0x202F ||
  c = Char.ofNat 0x205F || c = Char.ofNat 0x3000

/-- isBetween(a, b) of the scanner. -/
def isBetween (a b : Char) (r : Char) : Bool := a ≤ r && r ≤ b

def isDecimalDigit (r : Char) : Bool := isBetween '0' '9' r

def isOctalDigit (r : Char) : Bool := isBetween '0' '7' r

def isHexDigit (r : Char) : Bool :=
  isDecimalDigit r || isBetween 'a' 'f' r || isBetween 'A' 'F' r

/-- scanner.Token: a kind together with the matched text. -/
structure Token where
  kind : token.Kind
  text : String
deriving DecidableEq, Repr

instance : Inhabited Token := ⟨⟨.Illegal, ""⟩⟩

/-- Token.String(): kinds with empty text print as the kind alone. -/
def Token.toString (t : Token) : String :=
  if t.text = "" then t.kind.toString
  else t.kind.toString ++ " (" ++ t.text ++ ")"

/-- Token.Is(kind). -/
def Token.Is (t : Token) (kind : token.Kind) : Bool := t.kind == kind

/-- Scanner.emit: string(value) of a nil slice is the empty string. -/
def emit (kind : token.Kind) (value : List Char) : Token :=
  ⟨kind, String.mk value⟩

/-- Scanner.read: the next rune and the remaining input; at end of input
the rune 0 (the scanner's eof constant) with the input unchanged. -/
def read : List Char → Char × List Char
  | [] => (eofRune, [])
  | c :: cs => (c, cs)

/-- Scanner.peek: read and unread unless the result was eof.  A rune 0
embedded in the input compares equal to the eof constant and is
therefore not pushed back. -/
def peek : List Char → Char × List Char
  | [] => (eofRune, [])
  | c :: cs => if c = eofRune then (eofRune, cs) else (c, c :: cs)

/-- Scanner.readUntil: runes up to (excluding) the first rune matching p,
which is pushed back; a rune equal to the eof constant stops the scan
without being pushed back. -/
def readUntil (p : Char → Bool) : List Char → List Char × List Char
  | [] => ([], [])
  | c :: cs =>
    if c = eofRune then ([], cs)
    else if p c then ([], c :: cs)
    else
      let (v, r) := readUntil p cs
      (c :: v, r)

/-- Scanner.readWhile. -/
def readWhile (p : Char → Bool) (s : List Char) : List Char × List Char :=
  readUntil (fun r => ! p r) s

/-- Scanner.identifier: letters, digits and underscores, classified
against true/false, the keyword table and the type table. -/
def identifier (s : List Char) : Token × List Char :=
  let (value, s1) := readWhile
    (fun c => isLetter c || isDecimalDigit c || c == underscore) s
  let text := String.mk value
  if text == "true" then (emit .True [], s1)
  else if text == "false" then (emit .False [], s1)
  else if token.Keyword text != .Illegal then (emit (token.Keyword text) [], s1)
  else if token.TypeKind text != .Illegal then (emit (token.TypeKind text) [], s1)
  else (emit .Identifier value, s1)

/-- The loop body of Scanner.string, with fuel for the termination
argument.  Every iteration with nonempty remaining input consumes at
least one rune, and once the input is empty at most two further
iterations can occur (each appends the eof rune, and an appended eof
rune is not a backslash), so the initial fuel of the caller is never
exhausted and the fuel-zero branch is unreachable. -/
def stringGo (first : Char) : Nat → List Char → List Char → Token × List Char
  | 0, value, s => (emit .StringLiteral value, s)
  | fuel + 1, value, s =>
    let (v, s1) := readUntil (fun r => r == first) s
    let (c, s2) := read s1
    let value := value ++ v ++ [c]
    if value.length == 2 || !(value[value.length - 2]? == some backslash) then
      (emit .StringLiteral value, s2)
    else
      stringGo first fuel value s2

/-- Scanner.string: consume the opening quote, then runs up to the
matching quote, continuing past a quote whose preceding rune is a
backslash. -/
def string (s : List Char) : Token × List Char :=
  let (first, s1) := read s
  stringGo first (s1.length + 2) [first] s1

/-- Scanner.comment: a second '/' is required; then the rest of the line
(excluding the newline). -/
def comment (s : List Char) : Token × List Char :=
  let (c1, s1) := read s
  let (c2, s2) := read s1
  let value := [c1, c2]
  if String.mk value != "//" then (emit .Illegal value, s2)
  else
    let (rest, s3) := readUntil (fun r => r == '\n') s2
    (emit .Comment (value ++ rest), s3)

/-- Scanner.octal: octal digits; a following decimal digit makes the
whole run (that digit included) Illegal. -/
def octal (value : List Char) (s : List Char) : Token × List Char :=
  let (v, s1) := readWhile isOctalDigit s
  let value := value ++ v
  let (pc, s2) := peek s1
  if isDecimalDigit pc then
    let (c, s3) := read s2
    (emit .Illegal (value ++ [c]), s3)
  else
    (emit .OctalLiteral value, s2)

/-- Scanner.hex: hex digits after the 0x prefix; none at all is Illegal. -/
def hex (value : List Char) (s : List Char) : Token × List Char :=
  let (v, s1) := readWhile isHexDigit s
  let value := value ++ v
  if value.length == 2 then (emit .Illegal value, s1)
  else (emit .HexLiteral value, s1)

/-- The exponent tail of Scanner.number: on 'e'/'E' a sign is mandatory
(its absence makes the literal Illegal) and the kind becomes Float. -/
def numberExp (tokK : token.Kind) (value : List Char) (next : Char)
    (s : List Char) : Token × List Char :=
  if next == 'E' || next == 'e' then
    let (_, s1) := read s
    let value := value ++ [next]
    let (sign, s2) := read s1
    let value := value ++ [sign]
    if sign != '+' && sign != '-' then (emit .Illegal value, s2)
    else
      let (v, s3) := readWhile isDecimalDigit s2
      (emit .FloatLiteral (value ++ v), s3)
  else (emit tokK value, s)

/-- Scanner.number: leading 0 + digit is octal, leading 0x/0X is hex,
otherwise decimal with optional fraction (making it Float) and optional
exponent. -/
def number (s : List Char) : Token × List Char :=
  let (first, s1) := read s
  let ps := peek s1
  let second := ps.1
  let s2 := ps.2
  if first == '0' && isDecimalDigit second then octal [first] s2
  else if first == '0' && (second == 'x' || second == 'X') then
    let (_, s3) := read s2
    hex [first, second] s3
  else
    let (v, s3) := readWhile isDecimalDigit s2
    let value := first :: v
    let pn := peek s3
    if pn.1 == dot then
      let (_, s4) := read pn.2
      let (f, s5) := readWhile isDecimalDigit s4
      let pn2 := peek s5
      numberExp .FloatLiteral (value ++ [dot] ++ f) pn2.1 pn2.2
    else
      numberExp .DecimalLiteral value pn.1 pn.2

/-- Scanner.Scan: skip whitespace, then dispatch on the next rune. -/
def Scan (s : List Char) : Token × List Char :=
  let s0 := (readWhile isSpace s).2
  let pr := peek s0
  let r := pr.1
  let s1 := pr.2
  if r == eofRune then (emit .EOF [], s1)
  else if isLetter r then identifier s1
  else if isDecimalDigit r then number s1
  else if r == quote || r == doubleQuote then string s1
  else if r == '/' then comment s1
  else if token.Punctuation (String.mk [r]) != .Illegal then
    let (_, s2) := read s1
    (emit (token.Punctuation (String.mk [r])) [], s2)
  else
    let (c, s2) := read s1
    (emit .Illegal [c], s2)

end scanner

namespace parser

open token (Kind)

/-- The comment-skipping rescan loop shared by peeker.scan and
peeker.peek.  Fuel bounds the number of rescans: every Comment token
consumes at least the two runes of its leading //, so an initial fuel of
the input length plus one is never exhausted. -/
def skipComments : Nat → scanner.Token × List Char → scanner.Token × List Char
  | 0, r => r
  | fuel + 1, (t, s) =>
    if t.kind == .Comment then skipComments fuel (scanner.Scan s)
    else (t, s)

/-- One token from the scanner, transparently skipping comments. -/
def scanToken (s : List Char) : scanner.Token × List Char :=
  skipComments (s.length + 1) (scanner.Scan s)

/-- parser.peeker: the scanner plus the one-token lookahead cache. -/
structure Peeker where
  s : List Char
  peeked : Option scanner.Token
deriving DecidableEq, Repr

/-- peeker.scan: return and clear the cached token, or scan a fresh one. -/
def Peeker.scan : Peeker → scanner.Token × Peeker
  | ⟨s, some t⟩ => (t, ⟨s, none⟩)
  | ⟨s, none⟩ =>
    let (t, s') := scanToken s
    (t, ⟨s', none⟩)

/-- peeker.peek: return the cached token, or scan one and cache it. -/
def Peeker.peek : Peeker → scanner.Token × Peeker
  | ⟨s, some t⟩ => (t, ⟨s, some t⟩)
  | ⟨s, none⟩ =>
    let (t, s') := scanToken s
    (t, ⟨s', some t⟩)

/-- Result of a parser step: a value with the rest of the stream, the
message of the panic that parseProto's recover would catch, or fuel
exhaustion (out never occurs in a run given enough fuel; a parse that
yields out at every fuel diverges). -/
inductive PR (α : Type) : Type where
  | ok : α → Peeker → PR α
  | err : String → PR α
  | out : PR α

/-- The parser monad: grammar productions thread the peeker and abort on
the first error, mirroring panic/recover in the source. -/
def PM (α : Type) : Type := Peeker → PR α

instance : Monad PM where
  pure a := fun p => .ok a p
  bind m f := fun p =>
    match m p with
    | .ok a p' => f a p'
    | .err e => .err e
    | .out => .out

/-- p.scan() as a monadic action. -/
def scanT : PM scanner.Token := fun p =>
  let (t, p') := p.scan
  .ok t p'

/-- p.peek() as a monadic action. -/
def peekT : PM scanner.Token := fun p =>
  let (t, p') := p.peek
  .ok t p'

/-- panicf: abort the parse with a message. -/
def throwT {α : Type} (msg : String) : PM α := fun _ => .err msg

/-- Fuel exhaustion (no counterpart in the source; see PR.out). -/
def outT {α : Type} : PM α := fun _ => .out

/-- peeker.consume: a token of one of the given kinds, or the panic
naming the expected kinds and the token found. -/
def consume (kinds : List Kind) : PM scanner.Token := fun p =>
  let (got, p') := p.scan
  if kinds.contains got.kind then .ok got p'
  else
    .err ("expected " ++ String.intercalate ", " (kinds.map Kind.toString) ++
      ", got " ++ got.toString)

/-- peeker.maybeConsume: consume only a token of one of the given kinds;
returns the peeked token and whether it was consumed. -/
def maybeConsume (kinds : List Kind) : PM (scanner.Token × Bool) := fun p =>
  let (got, p') := p.peek
  if kinds.contains got.kind then
    let (_, p'') := p'.scan
    .ok (got, true) p''
  else .ok (got, false) p'

/-- parser.FullIdentifier: a dot-separated run of identifier tokens. -/
abbrev FullIdentifier := List scanner.Token

/-- The AST node for the syntax statement (named Syntax in the source). -/
structure SyntaxStmt where
  value : scanner.Token
deriving DecidableEq, Repr

/-- parser.Import. -/
structure Import where
  modifier : scanner.Token
  path : scanner.Token
deriving DecidableEq, Repr

/-- parser.Package. -/
structure Package where
  identifier : FullIdentifier
deriving DecidableEq, Repr

/-- The values stored in parser.Option.Value (an interface{} holding a
scanner.Token, a parser.SignedNumber, or a parser.FullIdentifier). -/
inductive Constant : Type where
  | tok : scanner.Token → Constant
  | signed : scanner.Token → scanner.Token → Constant
  | ident : FullIdentifier → Constant
deriving DecidableEq, Repr

/-- parser.Option (renamed; Option is taken in Lean).  The field Prefix
is renamed pfx.  Nil slices of the source are empty lists. -/
structure ProtoOption where
  pfx : FullIdentifier
  name : FullIdentifier
  value : Constant
deriving DecidableEq, Repr

/-- parser.Field. -/
structure Field where
  repeated : Bool
  type : scanner.Token
  name : scanner.Token
  number : scanner.Token
  options : List ProtoOption
deriving DecidableEq, Repr

/-- parser.EnumField. -/
structure EnumField where
  name : scanner.Token
  number : scanner.Token
  options : List ProtoOption
deriving DecidableEq, Repr

/-- parser.Enum. -/
structure Enum where
  name : scanner.Token
  fields : List EnumField
  options : List ProtoOption
deriving DecidableEq, Repr

/-- parser.OneOfField: note there is no Repeated flag. -/
structure OneOfField where
  type : scanner.Token
  name : scanner.Token
  number : scanner.Token
  options : List ProtoOption
deriving DecidableEq, Repr

/-- parser.OneOf: its fields are OneOfFields. -/
structure OneOf where
  name : scanner.Token
  fields : List OneOfField
deriving DecidableEq, Repr

/-- parser.Type (renamed; Type is reserved in Lean): either a predefined
type token or a user-defined full identifier, the other field zero. -/
structure TypeNode where
  predefined : scanner.Token
  userDefined : FullIdentifier
deriving DecidableEq, Repr

/-- parser.Map. -/
structure Map where
  keyType : scanner.Token
  valueType : TypeNode
  name : scanner.Token
  number : scanner.Token
  options : List ProtoOption
deriving DecidableEq, Repr

/-- parser.Range (fields From and To renamed). -/
structure Range where
  fromTok : scanner.Token
  toTok : scanner.Token
deriving DecidableEq, Repr

/-- parser.Reserved. -/
structure Reserved where
  ids : List scanner.Token
  names : List scanner.Token
  ranges : List Range
deriving DecidableEq, Repr

/-- parser.RPCParam. -/
structure RPCParam where
  stream : Bool
  type : FullIdentifier
deriving DecidableEq, Repr

/-- parser.RPC (fields In and Out renamed). -/
structure RPC where
  name : scanner.Token
  inParam : RPCParam
  outParam : RPCParam
  options : List ProtoOption
deriving DecidableEq, Repr

/-- parser.Service. -/
structure Service where
  name : scanner.Token
  options : List ProtoOption
  rpcs : List RPC
deriving DecidableEq, Repr

/-- parser.Message: recursive through the nested message list, hence an
inductive with the fields in source order. -/
inductive Message : Type where
  | mk (name : scanner.Token) (fields : List Field) (enums : List Enum)
      (messages : List Message) (options : List ProtoOption)
      (oneofs : List OneOf) (maps : List Map) (reserveds : List Reserved)

/-- parser.Proto. -/
structure Proto where
  syntaxStmt : SyntaxStmt
  package : Package
  imports : List Import
  options : List ProtoOption
  messages : List Message
  enums : List Enum
  services : List Service

/-- The dot-loop of parseFullIdentifier. -/
def parseFullIdentifierGo : Nat → FullIdentifier → PM FullIdentifier
  | 0, _ => outT
  | fuel + 1, ident => do
    let dotTok ← peekT
    if dotTok.kind != .Dot then pure ident
    else do
      let _ ← scanT
      let idTok ← consume [.Identifier]
      parseFullIdentifierGo fuel (ident ++ [idTok])

/-- parser.parseFullIdentifier. -/
def parseFullIdentifier (fuel : Nat) : PM FullIdentifier := do
  let idTok ← consume [.Identifier]
  parseFullIdentifierGo fuel [idTok]

/-- parser.parseConstant. -/
def parseConstant (fuel : Nat) : PM Constant := do
  let next ← peekT
  if token.IsConstant next.kind then do
    let t ← scanT
    pure (.tok t)
  else if next.kind == .Plus || next.kind == .Minus then do
    let _ ← scanT
    let number ← scanT
    if ! token.IsNumber number.kind then
      throwT ("expected number after " ++ next.kind.toString ++ ", got " ++
        number.kind.toString)
    else pure (.signed next number)
  else if next.kind == .Identifier then do
    let fi ← parseFullIdentifier fuel
    pure (.ident fi)
  else throwT ("expected a valid constant value, but got " ++ next.toString)

/-- parser.parseFieldOption: optionName = constant. -/
def parseFieldOption (fuel : Nat) : PM ProtoOption := do
  let (_, ok) ← maybeConsume [.OpenParen]
  let pfx ← if ok then do
      let fi ← parseFullIdentifier fuel
      let _ ← consume [.CloseParen]
      pure fi
    else pure ([] : FullIdentifier)
  let nx ← peekT
  let name ← if nx.kind == .Identifier then parseFullIdentifier fuel
    else pure ([] : FullIdentifier)
  if pfx.isEmpty && name.isEmpty then throwT "missing name in option"
  else do
    let _ ← consume [.Equals]
    let v ← parseConstant fuel
    pure ⟨pfx, name, v⟩

/-- The bracketed list loop of parseFieldOptions. -/
def parseFieldOptionsGo : Nat → List ProtoOption → PM (List ProtoOption)
  | 0, _ => outT
  | fuel + 1, opts => do
    let opt ← parseFieldOption fuel
    let opts := opts ++ [opt]
    let (_, ok) ← maybeConsume [.CloseBracket]
    if ok then pure opts
    else do
      let _ ← consume [.Comma]
      parseFieldOptionsGo fuel opts

/-- parser.parseFieldOptions: nil without a leading '['. -/
def parseFieldOptions (fuel : Nat) : PM (List ProtoOption) := do
  let (_, ok) ← maybeConsume [.OpenBracket]
  if !ok then pure []
  else parseFieldOptionsGo fuel []

/-- parser.parseOption: option optionName = constant ; -/
def parseOption (fuel : Nat) : PM ProtoOption := do
  let _ ← consume [.Option]
  let opt ← parseFieldOption fuel
  let _ ← consume [.Semicolon]
  pure opt

/-- parser.parseSyntax: syntax = quote proto3 quote ; with the literal
text checked against both quote styles. -/
def parseSyntaxStmt : PM SyntaxStmt := do
  let _ ← consume [.SyntaxKw]
  let _ ← consume [.Equals]
  let value ← consume [.StringLiteral]
  if value.text != "\"proto3\"" && value.text != "'proto3'" then
    throwT ("expected literal string \"proto3\", got " ++ value.text ++
      " instead")
  else do
    let _ ← consume [.Semicolon]
    pure ⟨value⟩

/-- parser.parseImport: the modifier token keeps its zero value when
neither weak nor public is present. -/
def parseImport : PM Import := do
  let _ ← consume [.Import]
  let (tok, ok) ← maybeConsume [.Weak, .Public]
  let mod := if ok then tok else (⟨.Illegal, ""⟩ : scanner.Token)
  let path ← consume [.StringLiteral]
  let _ ← consume [.Semicolon]
  pure ⟨mod, path⟩

/-- parser.parsePackage. -/
def parsePackage (fuel : Nat) : PM Package := do
  let _ ← consume [.Package]
  let ident ← parseFullIdentifier fuel
  let _ ← consume [.Semicolon]
  pure ⟨ident⟩

/-- parser.parseOneOfField: type fieldName = fieldNumber fieldOptions ; -/
def parseOneOfField (fuel : Nat) : PM OneOfField := do
  let typ ← scanT
  if typ.kind != .Identifier && ! token.IsType typ.kind then
    throwT ("expected field type, got " ++ typ.toString)
  else do
    let name ← consume [.Identifier]
    let _ ← consume [.Equals]
    let number ← consume [.DecimalLiteral]
    let opts ← parseFieldOptions fuel
    let _ ← consume [.Semicolon]
    pure ⟨typ, name, number, opts⟩

/-- parser.parseField: an optional repeated flag and a oneof field. -/
def parseField (fuel : Nat) : PM Field := do
  let (_, repeated) ← maybeConsume [.Repeated]
  let f ← parseOneOfField fuel
  pure ⟨repeated, f.type, f.name, f.number, f.options⟩

/-- parser.parseEnumField. -/
def parseEnumField (fuel : Nat) : PM EnumField := do
  let name ← consume [.Identifier]
  let _ ← consume [.Equals]
  let number ← consume [.DecimalLiteral]
  let opts ← parseFieldOptions fuel
  let _ ← consume [.Semicolon]
  pure ⟨name, number, opts⟩

/-- The body loop of parseEnum. -/
def parseEnumGo : Nat → scanner.Token → List EnumField → List ProtoOption →
    PM Enum
  | 0, _, _, _ => outT
  | fuel + 1, name, fields, opts => do
    let nx ← peekT
    let kind := nx.kind
    if token.IsType kind || kind == .Identifier || kind == .Repeated then do
      let f ← parseEnumField fuel
      parseEnumGo fuel name (fields ++ [f]) opts
    else if kind == .Option then do
      let o ← parseOption fuel
      parseEnumGo fuel name fields (opts ++ [o])
    else if kind == .CloseBrace then do
      let _ ← scanT
      pure ⟨name, fields, opts⟩
    else do
      let t ← scanT
      throwT ("expected '\x7d' to end message definition, got " ++ t.toString)

/-- parser.parseEnum. -/
def parseEnum (fuel : Nat) : PM Enum := do
  let _ ← consume [.Enum]
  let name ← consume [.Identifier]
  let _ ← consume [.OpenBrace]
  parseEnumGo fuel name [] []

/-- The body loop of parseOneOf. -/
def parseOneOfGo : Nat → scanner.Token → List OneOfField → PM OneOf
  | 0, _, _ => outT
  | fuel + 1, name, fields => do
    let (_, ok) ← maybeConsume [.CloseBrace]
    if ok then pure ⟨name, fields⟩
    else do
      let f ← parseOneOfField fuel
      parseOneOfGo fuel name (fields ++ [f])

/-- parser.parseOneOf. -/
def parseOneOf (fuel : Nat) : PM OneOf := do
  let _ ← consume [.Oneof]
  let name ← consume [.Identifier]
  let _ ← consume [.OpenBrace]
  parseOneOfGo fuel name []

/-- parser.parseType: a predefined type token or a full identifier. -/
def parseType (fuel : Nat) : PM TypeNode := do
  let nx ← peekT
  if token.IsType nx.kind then do
    let t ← scanT
    pure ⟨t, []⟩
  else do
    let fi ← parseFullIdentifier fuel
    pure ⟨⟨.Illegal, ""⟩, fi⟩

/-- parser.parseMap: the key must satisfy IsKeyType. -/
def parseMap (fuel : Nat) : PM Map := do
  let _ ← consume [.Map]
  let _ ← consume [.OpenAngled]
  let key ← scanT
  if ! token.IsKeyType key.kind then
    throwT ("expected key type, got " ++ key.toString)
  else do
    let _ ← consume [.Comma]
    let value ← parseType fuel
    let _ ← consume [.CloseAngled]
    let name ← consume [.Identifier]
    let _ ← consume [.Equals]
    let number ← consume [.DecimalLiteral]
    let opts ← parseFieldOptions fuel
    let _ ← consume [.Semicolon]
    pure ⟨key, value, name, number, opts⟩

/-- The item loop of parseReserved. -/
def parseReservedGo : Nat → List scanner.Token → List scanner.Token →
    List Range → PM Reserved
  | 0, _, _, _ => outT
  | fuel + 1, ids, names, ranges => do
    let (fromT, ok) ← maybeConsume [.DecimalLiteral, .StringLiteral]
    if !ok then
      throwT ("expected decimal literal or string, got " ++ fromT.toString)
    else do
      let (_, okTo) ← maybeConsume [.To]
      let (ids, names, ranges) ←
        if okTo then do
          let toT ← consume [fromT.kind]
          pure (ids, names, ranges ++ [Range.mk fromT toT])
        else if fromT.kind == .DecimalLiteral then
          pure (ids ++ [fromT], names, ranges)
        else
          pure (ids, names ++ [fromT], ranges)
      let (_, okSemi) ← maybeConsume [.Semicolon]
      if okSemi then pure ⟨ids, names, ranges⟩
      else do
        let _ ← consume [.Comma]
        parseReservedGo fuel ids names ranges

/-- parser.parseReserved. -/
def parseReserved (fuel : Nat) : PM Reserved := do
  let _ ← consume [.Reserved]
  parseReservedGo fuel [] [] []

/-- parser.parseRPCParam. -/
def parseRPCParam (fuel : Nat) : PM RPCParam := do
  let _ ← consume [.OpenParen]
  let (_, stream) ← maybeConsume [.Stream]
  let typ ← parseFullIdentifier fuel
  let _ ← consume [.CloseParen]
  pure ⟨stream, typ⟩

/-- The option-block loop of parseRPC. -/
def parseRPCGo : Nat → RPC → PM RPC
  | 0, _ => outT
  | fuel + 1, rpc => do
    let (_, ok) ← maybeConsume [.CloseBrace]
    if ok then pure rpc
    else do
      let o ← parseOption fuel
      parseRPCGo fuel { rpc with options := rpc.options ++ [o] }

/-- parser.parseRPC. -/
def parseRPC (fuel : Nat) : PM RPC := do
  let _ ← consume [.RPC]
  let name ← consume [.Identifier]
  let inP ← parseRPCParam fuel
  let _ ← consume [.Returns]
  let outP ← parseRPCParam fuel
  let (_, ok) ← maybeConsume [.Semicolon]
  if ok then pure ⟨name, inP, outP, []⟩
  else do
    let _ ← consume [.OpenBrace]
    parseRPCGo fuel ⟨name, inP, outP, []⟩

/-- The body loop of parseService. -/
def parseServiceGo : Nat → Service → PM Service
  | 0, _ => outT
  | fuel + 1, svc => do
    let nx ← peekT
    if nx.kind == .Option then do
      let o ← parseOption fuel
      parseServiceGo fuel { svc with options := svc.options ++ [o] }
    else if nx.kind == .RPC then do
      let r ← parseRPC fuel
      parseServiceGo fuel { svc with rpcs := svc.rpcs ++ [r] }
    else if nx.kind == .CloseBrace then do
      let _ ← scanT
      pure svc
    else throwT ("expected option or rpc in service, got " ++ nx.toString)

/-- parser.parseService. -/
def parseService (fuel : Nat) : PM Service := do
  let _ ← consume [.Service]
  let name ← consume [.Identifier]
  let _ ← consume [.OpenBrace]
  parseServiceGo fuel ⟨name, [], []⟩

/-- The body loop of parseMessage; the parser for nested messages is
passed in to close the recursive knot through the fuel. -/
def parseMessageGo (pm : PM Message) :
    Nat → scanner.Token → List Field → List Enum → List Message →
    List ProtoOption → List OneOf → List Map → List Reserved → PM Message
  | 0, _, _, _, _, _, _, _, _ => outT
  | fuel + 1, name, fields, enums, messages, options, oneofs, maps,
      reserveds => do
    let nx ← peekT
    let kind := nx.kind
    if token.IsType kind || kind == .Identifier || kind == .Repeated then do
      let f ← parseField fuel
      parseMessageGo pm fuel name (fields ++ [f]) enums messages options
        oneofs maps reserveds
    else if kind == .Enum then do
      let e ← parseEnum fuel
      parseMessageGo pm fuel name fields (enums ++ [e]) messages options
        oneofs maps reserveds
    else if kind == .Message then do
      let m ← pm
      parseMessageGo pm fuel name fields enums (messages ++ [m]) options
        oneofs maps reserveds
    else if kind == .Option then do
      let o ← parseOption fuel
      parseMessageGo pm fuel name fields enums messages (options ++ [o])
        oneofs maps reserveds
    else if kind == .Oneof then do
      let o ← parseOneOf fuel
      parseMessageGo pm fuel name fields enums messages options
        (oneofs ++ [o]) maps reserveds
    else if kind == .Map then do
      let m ← parseMap fuel
      parseMessageGo pm fuel name fields enums messages options oneofs
        (maps ++ [m]) reserveds
    else if kind == .Reserved then do
      let r ← parseReserved fuel
      parseMessageGo pm fuel name fields enums messages options oneofs maps
        (reserveds ++ [r])
    else if kind == .Semicolon then do
      let _ ← scanT
      parseMessageGo pm fuel name fields enums messages options oneofs maps
        reserveds
    else if kind == .CloseBrace then do
      let _ ← scanT
      pure (.mk name fields enums messages options oneofs maps reserveds)
    else do
      let t ← scanT
      throwT ("expected '\x7d' to end message definition, got " ++ t.toString)

/-- parser.parseMessage. -/
def parseMessage : Nat → PM Message
  | 0 => outT
  | fuel + 1 => do
    let _ ← consume [.Message]
    let name ← consume [.Identifier]
    let _ ← consume [.OpenBrace]
    parseMessageGo (parseMessage fuel) fuel name [] [] [] [] [] [] []

/-- The statement loop of parseProto.  In the Semicolon and Comment
cases the source merely continues after a peek, consuming nothing, so
the recursive call receives the unchanged peeker. -/
def parseProtoGo : Nat → Proto → PM Proto
  | 0, _ => outT
  | fuel + 1, proto => do
    let next ← peekT
    let kind := next.kind
    if kind == .Package then
      if proto.package.identifier.length > 0 then
        throwT "found second package definition"
      else do
        let pkg ← parsePackage fuel
        parseProtoGo fuel { proto with package := pkg }
    else if kind == .Import then do
      let imp ← parseImport
      parseProtoGo fuel { proto with imports := proto.imports ++ [imp] }
    else if kind == .Option then do
      let o ← parseOption fuel
      parseProtoGo fuel { proto with options := proto.options ++ [o] }
    else if kind == .Message then do
      let m ← parseMessage fuel
      parseProtoGo fuel { proto with messages := proto.messages ++ [m] }
    else if kind == .Enum then do
      let e ← parseEnum fuel
      parseProtoGo fuel { proto with enums := proto.enums ++ [e] }
    else if kind == .Service then do
      let s ← parseService fuel
      parseProtoGo fuel { proto with services := proto.services ++ [s] }
    else if kind == .Semicolon || kind == .Comment then
      parseProtoGo fuel proto
    else if kind == .EOF then pure proto
    else throwT ("unexpected " ++ next.toString ++ " at top level definition")

/-- parser.parseProto: the mandatory syntax statement followed by the
statement loop, starting from a Proto whose other fields are zero. -/
def parseProto : Nat → PM Proto
  | 0 => outT
  | fuel + 1 => do
    let syn ← parseSyntaxStmt
    parseProtoGo fuel
      { syntaxStmt := syn, package := ⟨[]⟩, imports := [], options := [],
        messages := [], enums := [], services := [] }

/-- parser.Parse: run parseProto on a fresh peeker over the input; the
recover in the source corresponds to the PR.err outcome. -/
def Parse (fuel : Nat) (input : String) : PR Proto :=
  parseProto fuel ⟨input.data, none⟩

end parser


/-! Shared concrete values used by the theorems below. -/

/-- The nineteen keyword strings of the language: the printed names of
the kinds strictly between first_keyword and last_keyword, the
last_constant marker excluded. -/
def keywordStrings : List String :=
  ["false", "true", "enum", "import", "map", "message", "oneof", "option",
   "package", "public", "repeated", "reserved", "returns", "rpc", "service",
   "stream", "syntax", "to", "weak"]

/-- The fifteen predefined type names: the printed names of the kinds
strictly between first_type and last_type, the first_key_type marker
excluded. -/
def typeNames : List String :=
  ["bytes", "double", "float", "bool", "fixed32", "fixed64", "int32",
   "int64", "sfixed32", "sfixed64", "sint32", "sint64", "string", "uint32",
   "uint64"]

/-- The twelve kinds actually satisfying token.IsKeyType. -/
def keyTypeKinds : List token.Kind :=
  [.Bool, .Fixed32, .Fixed64, .Int32, .Int64, .Sfixed32, .Sfixed64,
   .Sint32, .Sint64, .String, .Uint32, .Uint64]

/-- Modelled from the spec: the key types as the specification and claim
enumerate them, namely bool, the fixed/sfixed/int/uint 32 and 64
variants, and string.  Kept separate from keyTypeKinds to compare the
claimed enumeration with the implemented predicate. -/
def claimedKeyKinds : List token.Kind :=
  [.Bool, .Fixed32, .Fixed64, .Sfixed32, .Sfixed64, .Int32, .Int64,
   .Uint32, .Uint64, .String]

/-- The Proto value produced by a file holding nothing but the
double-quoted syntax statement. -/
def syntaxOnlyProto : parser.Proto :=
  ⟨⟨⟨.StringLiteral, "\"proto3\""⟩⟩, ⟨[]⟩, [], [], [], [], []⟩

/-- The peeker state after a successful parse: input exhausted, the EOF
token cached by the final peek. -/
def eofPeeker : parser.Peeker := ⟨[], some ⟨.EOF, ""⟩⟩

/-! Helper lemmas. -/

/-- The statement loop of parseProto never consumes a peeked Semicolon
token: from any state whose lookahead cache holds a Semicolon it runs
out of any amount of fuel, i.e. the source loops forever. -/
theorem parseProtoGo_stuck (proto : parser.Proto) (s : List Char)
    (txt : String) :
    ∀ n : Nat,
      parser.parseProtoGo n proto ⟨s, some ⟨.Semicolon, txt⟩⟩ = .out := by
  intro n
  induction n with
  | zero => rfl
  | succ k ih => exact ih

/-- A non-Illegal result of a lookup table built by from(a, b) means the
looked-up string is the lowercased printed name of some kind index in
the open interval (a, b). -/
theorem fromKinds_illegal_or_mem (a b : token.Kind) (s : String) :
    token.fromKinds a b s = .Illegal ∨
    s ∈ (List.range' (a.toNat + 1) (b.toNat - a.toNat - 1)).map
      (fun t => token.asciiToLower (token.Kind.toString (token.Kind.fromNat t))) := by
  unfold token.fromKinds
  cases hfind : List.find?
      (fun t => token.asciiToLower (token.Kind.toString (token.Kind.fromNat t)) == s)
      (List.range' (a.toNat + 1) (b.toNat - a.toNat - 1)) with
  | none => exact Or.inl rfl
  | some t =>
    right
    have hmem := List.mem_of_find?_eq_some hfind
    have hp := List.find?_some hfind
    rw [beq_iff_eq] at hp
    exact hp ▸ List.mem_map_of_mem _ hmem

/-- Keyword returns Illegal for every string other than the nineteen
keyword strings and the reflection artifact "unkown token kind 15" (the
printed name of the last_constant marker, which the table construction
also covers). -/
theorem keyword_illegal_or_key (s : String) :
    token.Keyword s = .Illegal ∨ s ∈ keywordStrings ∨
      s = "unkown token kind 15" := by
  rcases fromKinds_illegal_or_mem .first_keyword .last_keyword s with h | h
  · exact Or.inl h
  · right
    have hl : (List.range'
        (token.Kind.first_keyword.toNat + 1)
        (token.Kind.last_keyword.toNat - token.Kind.first_keyword.toNat - 1)).map
        (fun t => token.asciiToLower (token.Kind.toString (token.Kind.fromNat t))) =
        ["false", "true", "unkown token kind 15", "enum", "import", "map",
         "message", "oneof", "option", "package", "public", "repeated",
         "reserved", "returns", "rpc", "service", "stream", "syntax", "to",
         "weak"] := rfl
    rw [hl] at h
    simp only [List.mem_cons, List.not_mem_nil, or_false] at h
    rcases h with rfl | rfl | rfl | rfl | rfl | rfl | rfl | rfl | rfl | rfl |
      rfl | rfl | rfl | rfl | rfl | rfl | rfl | rfl | rfl | rfl
    all_goals first
      | (right; rfl)
      | (left; decide)

/-- TypeKind returns Illegal for every string other than the fifteen
type names and the reflection artifact "unkown token kind 38" (the
printed name of the first_key_type marker). -/
theorem typekind_illegal_or_key (s : String) :
    token.TypeKind s = .Illegal ∨ s ∈ typeNames ∨
      s = "unkown token kind 38" := by
  rcases fromKinds_illegal_or_mem .first_type .last_type s with h | h
  · exact Or.inl h
  · right
    have hl : (List.range'
        (token.Kind.first_type.toNat + 1)
        (token.Kind.last_type.toNat - token.Kind.first_type.toNat - 1)).map
        (fun t => token.asciiToLower (token.Kind.toString (token.Kind.fromNat t))) =
        ["bytes", "double", "float", "unkown token kind 38", "bool",
         "fixed32", "fixed64", "int32", "int64", "sfixed32", "sfixed64",
         "sint32", "sint64", "string", "uint32", "uint64"] := rfl
    rw [hl] at h
    simp only [List.mem_cons, List.not_mem_nil, or_false] at h
    rcases h with rfl | rfl | rfl | rfl | rfl | rfl | rfl | rfl | rfl | rfl |
      rfl | rfl | rfl | rfl | rfl | rfl
    all_goals first
      | (right; rfl)
      | (left; decide)

/-! The claim theorems. -/

/-- C1: Parse requires the first statement to be a syntax statement
whose string literal is exactly proto3, in either quote style; for any
other value, e.g. for input syntax = "proto2";, Parse fails with the
error naming the expected literal "proto3" and the value actually
found; a file whose first statement is not a syntax statement fails
naming the syntax keyword as expected. -/
theorem c1_parse_requires_proto3_syntax :
    ∀ n : Nat,
      parser.Parse (n + 1) "syntax = \"proto2\";" =
        .err "expected literal string \"proto3\", got \"proto2\" instead" ∧
      parser.Parse (n + 1) "syntax = 'proto2';" =
        .err "expected literal string \"proto3\", got 'proto2' instead" ∧
      parser.Parse (n + 2) "syntax = \"proto3\";" =
        .ok syntaxOnlyProto eofPeeker ∧
      parser.Parse (n + 2) "syntax = 'proto3';" =
        .ok ⟨⟨⟨.StringLiteral, "'proto3'"⟩⟩, ⟨[]⟩, [], [], [], [], []⟩
          eofPeeker ∧
      parser.Parse (n + 1) "message Foo \x7b\x7d" =
        .err "expected syntax, got message" :=
  fun _ => ⟨rfl, rfl, rfl, rfl, rfl⟩

/-- C2: the claim that Parse returns a Proto or an error on every input
fails: on input syntax = "proto3";; (a stray empty statement at top
level) the statement loop peeks the Semicolon token and continues
without consuming it, so Parse diverges, returning nothing at any fuel;
on inputs where a grammar violation is reached, the single error names
the expected construct and the token found, as the second conjunct
illustrates. -/
theorem c2_parse_diverges_on_stray_semicolon :
    (∀ fuel : Nat, parser.Parse fuel "syntax = \"proto3\";;" = .out) ∧
    (∀ n : Nat, parser.Parse (n + 3) "syntax = \"proto3\"; message" =
      .err "expected identifier, got end of file") := by
  constructor
  · intro fuel
    match fuel with
    | 0 => rfl
    | 1 => rfl
    | (n + 2) =>
      show parser.parseProtoGo n syntaxOnlyProto ⟨[], some ⟨.Semicolon, ""⟩⟩ =
        .out
      exact parseProtoGo_stuck syntaxOnlyProto [] "" n
  · intro n
    rfl

/-- C3: the claim that a stray top-level semicolon is skipped and the
parse terminates fails: on syntax = "proto3"; ; message Foo {} the
statement loop peeks the Semicolon and continues without consuming it,
so Parse diverges at every fuel; the same input without the stray
semicolon parses to the Proto holding the single empty message Foo. -/
theorem c3_parse_loops_on_stray_semicolon :
    (∀ fuel : Nat,
      parser.Parse fuel "syntax = \"proto3\"; ; message Foo \x7b\x7d" =
        .out) ∧
    (∀ n : Nat,
      parser.Parse (n + 8) "syntax = \"proto3\"; message Foo \x7b\x7d" =
        .ok ⟨⟨⟨.StringLiteral, "\"proto3\""⟩⟩, ⟨[]⟩, [], [],
          [.mk ⟨.Identifier, "Foo"⟩ [] [] [] [] [] [] []], [], []⟩
          eofPeeker) := by
  constructor
  · intro fuel
    match fuel with
    | 0 => rfl
    | 1 => rfl
    | (n + 2) =>
      show parser.parseProtoGo n syntaxOnlyProto
        ⟨" message Foo \x7b\x7d".data, some ⟨.Semicolon, ""⟩⟩ = .out
      exact parseProtoGo_stuck syntaxOnlyProto " message Foo \x7b\x7d".data
        "" n
  · intro n
    rfl

/-- C4: Scan classifies numeric literals per the number sub-grammar:
0, 1, 20, 30000 are decimal; 01, 020 are octal; 019 is one Illegal token
covering the whole run including the 9; 0x1, 0XA2F are hex; 0x is
Illegal; 0.1E+2, 1.2, 1.3E-10, 4e+5 are float; 4e.5 scans as the
Illegal token "4e." immediately followed by the separate decimal token
"5". -/
theorem c4_scan_number_subgrammar :
    scanner.Scan "0".data = (⟨.DecimalLiteral, "0"⟩, []) ∧
    scanner.Scan "1".data = (⟨.DecimalLiteral, "1"⟩, []) ∧
    scanner.Scan "20".data = (⟨.DecimalLiteral, "20"⟩, []) ∧
    scanner.Scan "30000".data = (⟨.DecimalLiteral, "30000"⟩, []) ∧
    scanner.Scan "01".data = (⟨.OctalLiteral, "01"⟩, []) ∧
    scanner.Scan "020".data = (⟨.OctalLiteral, "020"⟩, []) ∧
    scanner.Scan "019".data = (⟨.Illegal, "019"⟩, []) ∧
    scanner.Scan "0x1".data = (⟨.HexLiteral, "0x1"⟩, []) ∧
    scanner.Scan "0XA2F".data = (⟨.HexLiteral, "0XA2F"⟩, []) ∧
    scanner.Scan "0x".data = (⟨.Illegal, "0x"⟩, []) ∧
    scanner.Scan "0.1E+2".data = (⟨.FloatLiteral, "0.1E+2"⟩, []) ∧
    scanner.Scan "1.2".data = (⟨.FloatLiteral, "1.2"⟩, []) ∧
    scanner.Scan "1.3E-10".data = (⟨.FloatLiteral, "1.3E-10"⟩, []) ∧
    scanner.Scan "4e+5".data = (⟨.FloatLiteral, "4e+5"⟩, []) ∧
    scanner.Scan "4e.5".data = (⟨.Illegal, "4e."⟩, ['5']) ∧
    scanner.Scan ['5'] = (⟨.DecimalLiteral, "5"⟩, []) :=
  ⟨rfl, rfl, rfl, rfl, rfl, rfl, rfl, rfl, rfl, rfl, rfl, rfl, rfl, rfl,
   rfl, rfl⟩

/-- C5: a backslash immediately preceding the closing quote does not
terminate a string scan and no unescaping happens: the double-quoted
input "hello\" there" is a single StringLiteral whose text runs to the
true closing quote with the backslash kept verbatim, and both '' and ""
are StringLiteral tokens with empty content between the quotes. -/
theorem c5_scan_string_escapes :
    scanner.Scan "\"hello\\\" there\"".data =
      (⟨.StringLiteral, "\"hello\\\" there\""⟩, []) ∧
    scanner.Scan "''".data = (⟨.StringLiteral, "''"⟩, []) ∧
    scanner.Scan "\"\"".data = (⟨.StringLiteral, "\"\""⟩, []) :=
  ⟨rfl, rfl, rfl⟩

/-- C10: when the input ends before the closing quote, Scan terminates
and returns a StringLiteral token (never Illegal) whose text begins
with the opening quote, and the next Scan returns EOF; the text also
records the eof rune the read loop appended.  The input ending in a
backslash exercises the extra loop iteration. -/
theorem c10_unterminated_string_is_string_literal :
    scanner.Scan "\"abc".data =
      (⟨.StringLiteral, String.mk ['"', 'a', 'b', 'c', scanner.eofRune]⟩,
        []) ∧
    (String.mk ['"', 'a', 'b', 'c', scanner.eofRune]).data.head? =
      some '"' ∧
    scanner.Scan [] = (⟨.EOF, ""⟩, []) ∧
    scanner.Scan "'xy".data =
      (⟨.StringLiteral, String.mk ['\'', 'x', 'y', scanner.eofRune]⟩,
        []) ∧
    scanner.Scan "\"ab\\".data =
      (⟨.StringLiteral,
        String.mk ['"', 'a', 'b', '\\', scanner.eofRune, scanner.eofRune]⟩,
        []) :=
  ⟨rfl, rfl, rfl, rfl, rfl⟩

/-- C6 counterexample: a oneof body containing a repeated field does
make the parse fail, but the fatal error is "expected field type, got
repeated", which does not name the offending field (the field name foo
is no part of the message): parseOneOf hands the body to
parseOneOfField, which rejects the repeated token before the field name
is ever scanned. -/
theorem c6_oneof_error_does_not_name_field :
    parser.Parse 30
      "syntax = \"proto3\"; message M \x7b oneof o \x7b repeated int32 foo = 1; \x7d \x7d" =
      .err "expected field type, got repeated" ∧
    ¬ ("foo".data <:+: "expected field type, got repeated".data) :=
  ⟨rfl, by decide⟩

/-- C6 (amended): a OneOf node carries OneOfField values, which have no
Repeated flag at all, so no field of a parsed OneOf is marked repeated;
a oneof block containing a repeated field makes the whole parse fail
with the fatal error "expected field type, got repeated" (naming the
unexpected repeated keyword, not the field), while a oneof containing
only non-repeated fields parses successfully. -/
theorem c6_oneof_rejects_repeated_field :
    ∀ n : Nat,
      parser.Parse (n + 25)
        "syntax = \"proto3\"; message M \x7b oneof o \x7b repeated int32 foo = 1; \x7d \x7d" =
        .err "expected field type, got repeated" ∧
      parser.Parse (n + 25)
        "syntax = \"proto3\"; message M \x7b oneof o \x7b int32 a = 1; string b = 2; \x7d \x7d" =
        .ok ⟨⟨⟨.StringLiteral, "\"proto3\""⟩⟩, ⟨[]⟩, [], [],
          [.mk ⟨.Identifier, "M"⟩ [] [] [] []
            [⟨⟨.Identifier, "o"⟩,
              [⟨⟨.Int32, ""⟩, ⟨.Identifier, "a"⟩, ⟨.DecimalLiteral, "1"⟩, []⟩,
               ⟨⟨.String, ""⟩, ⟨.Identifier, "b"⟩, ⟨.DecimalLiteral, "2"⟩,
                 []⟩]⟩]
            [] []], [], []⟩
          eofPeeker :=
  fun _ => ⟨rfl, rfl⟩

/-- C7 counterexample: sint32 satisfies IsKeyType and is accepted as a
map key, although it is absent from the claim's enumeration of the key
types (bool, the fixed/sfixed/int/uint 32 and 64 variants, and
string). -/
theorem c7_sint32_key_accepted_but_unlisted :
    token.IsKeyType .Sint32 = true ∧
    token.Kind.Sint32 ∉ claimedKeyKinds ∧
    parser.Parse 30
      "syntax = \"proto3\"; message M \x7b map<sint32, string> x = 1; \x7d" =
      .ok ⟨⟨⟨.StringLiteral, "\"proto3\""⟩⟩, ⟨[]⟩, [], [],
        [.mk ⟨.Identifier, "M"⟩ [] [] [] [] []
          [⟨⟨.Sint32, ""⟩, ⟨⟨.String, ""⟩, []⟩, ⟨.Identifier, "x"⟩,
            ⟨.DecimalLiteral, "1"⟩, []⟩] []], [], []⟩
        eofPeeker :=
  ⟨rfl, by decide, rfl⟩

/-- C7 (amended): parseMap accepts as map key only tokens satisfying
IsKeyType, which holds exactly for bool, fixed32/64, sfixed32/64,
int32/64, sint32/64, uint32/64 and string, excluding bytes, double and
float; inside a message, map<bytes, string> x = 1; makes Parse fail
with the fatal error naming the bytes token, while
map<string, Foo> x = 1; parses into a Map node. -/
theorem c7_map_key_must_satisfy_iskeytype :
    (∀ k : token.Kind, token.IsKeyType k = true ↔ k ∈ keyTypeKinds) ∧
    (∀ n : Nat,
      parser.Parse (n + 25)
        "syntax = \"proto3\"; message M \x7b map<bytes, string> x = 1; \x7d" =
        .err "expected key type, got bytes") ∧
    (∀ n : Nat,
      parser.Parse (n + 25)
        "syntax = \"proto3\"; message M \x7b map<string, Foo> x = 1; \x7d" =
        .ok ⟨⟨⟨.StringLiteral, "\"proto3\""⟩⟩, ⟨[]⟩, [], [],
          [.mk ⟨.Identifier, "M"⟩ [] [] [] [] []
            [⟨⟨.String, ""⟩, ⟨⟨.Illegal, ""⟩, [⟨.Identifier, "Foo"⟩]⟩,
              ⟨.Identifier, "x"⟩, ⟨.DecimalLiteral, "1"⟩, []⟩] []], [], []⟩
          eofPeeker) := by
  refine ⟨?_, fun _ => rfl, fun _ => rfl⟩
  intro k
  cases k <;> decide

/-- C8: at most one package statement may appear at top level: a second
package statement fails with exactly "found second package definition",
while files with one or zero package statements parse without that
error. -/
theorem c8_at_most_one_package :
    ∀ n : Nat,
      parser.Parse (n + 6) "syntax = \"proto3\"; package a; package b;" =
        .err "found second package definition" ∧
      parser.Parse (n + 6) "syntax = \"proto3\"; package a.b;" =
        .ok ⟨⟨⟨.StringLiteral, "\"proto3\""⟩⟩,
          ⟨[⟨.Identifier, "a"⟩, ⟨.Identifier, "b"⟩]⟩, [], [], [], [], []⟩
          eofPeeker ∧
      parser.Parse (n + 2) "syntax = \"proto3\";" =
        .ok syntaxOnlyProto eofPeeker :=
  fun _ => ⟨rfl, rfl, rfl⟩

/-- C9 counterexample: the lookup tables built by reflecting over the
enumeration ranges also cover the unexported range markers, so for the
strings "unkown token kind 15" and "unkown token kind 38" (the printed
names of last_constant and first_key_type), which lie outside the
keyword and type name sets, Keyword and Type do not return Illegal. -/
theorem c9_marker_lookup_not_illegal :
    token.Keyword "unkown token kind 15" = token.Kind.last_constant ∧
    token.Kind.last_constant ≠ token.Kind.Illegal ∧
    "unkown token kind 15" ∉ keywordStrings ∧
    token.TypeKind "unkown token kind 38" = token.Kind.first_key_type ∧
    "unkown token kind 38" ∉ typeNames := by
  decide

/-- C9 (amended): for every string in the nineteen-element keyword set,
Keyword returns a kind with IsKeyword true whose lowercased printed
name is that string; for every one of the fifteen predefined type
names, Type returns a kind with IsType true whose lowercased printed
name is that string; and for any other string the lookups return
Illegal, except for the reflection artifacts "unkown token kind 15"
and "unkown token kind 38", which map to the range markers
last_constant and first_key_type. -/
theorem c9_lookup_tables_roundtrip :
    ((keywordStrings.all fun s =>
      token.IsKeyword (token.Keyword s) &&
      (token.asciiToLower (token.Kind.toString (token.Keyword s)) == s)) =
        true) ∧
    ((typeNames.all fun s =>
      token.IsType (token.TypeKind s) &&
      (token.asciiToLower (token.Kind.toString (token.TypeKind s)) == s)) =
        true) ∧
    (∀ s : String, token.Keyword s = .Illegal ∨ s ∈ keywordStrings ∨
      s = "unkown token kind 15") ∧
    (∀ s : String, token.TypeKind s = .Illegal ∨ s ∈ typeNames ∨
      s = "unkown token kind 38") :=
  ⟨by decide, by decide, keyword_illegal_or_key, typekind_illegal_or_key⟩
